import Mathlib

/-!
Verification development for the branchwater sketch-search engine.

This file gives a shallow embedding, in Lean 4, of the parts of the
`sourmash_plugin_branchwater` Rust sources that the checked properties
talk about: the FracMinHash sketch operations it inherits from the
`sourmash` library, the prefetch filter (`src/utils.rs`), the greedy
gather loop (`consume_query_by_gather` in `src/utils.rs`), the threshold
computations in `src/fastgather.rs` and `src/mastiff_manygather.rs`, the
comparison loops of `src/multisearch.rs`, `src/manysearch.rs`,
`src/pairwise.rs` and `src/manysearch_rocksdb.rs`, and the
`MultiCollection` flag bookkeeping in `src/utils/multicollection.rs`.

Machine integers (`u64`, `usize`) are embedded as `Nat`; the Rust code
never exercises overflow on these paths (hash counts are bounded by set
cardinalities).  `f64` arithmetic on containment fractions is embedded
as exact rational arithmetic (`ℚ`); only order comparisons of these
fractions matter to the properties below.  Fallible Rust operations
(`Result`) are embedded as `Except`.  Concurrency (rayon parallel
iterators, channels) is erased: each parallel `filter_map`/`flat_map`
pipeline is embedded as its sequential list counterpart, which produces
the same multiset of rows.
-/

/-- Decidable equality for `Except`, used to evaluate the embedded
fallible operations on concrete inputs. -/
instance {ε α : Type} [DecidableEq ε] [DecidableEq α] : DecidableEq (Except ε α)
  | .ok a, .ok b =>
      if h : a = b then .isTrue (by rw [h])
      else .isFalse (by intro hc; exact h (Except.ok.inj hc))
  | .ok _, .error _ => .isFalse (by intro hc; exact Except.noConfusion hc)
  | .error _, .ok _ => .isFalse (by intro hc; exact Except.noConfusion hc)
  | .error e, .error f =>
      if h : e = f then .isTrue (by rw [h])
      else .isFalse (by intro hc; exact h (Except.error.inj hc))

/-- Errors of the sourmash sketch comparison operations.
Modelled from the spec: `MismatchKSizes`, `MismatchMoltype`,
`MismatchSeed`, `MismatchScaled` from section 4.1, plus the
downsampling error (`new_scaled` below current). -/
inductive SketchError where
  | mismatchKSizes
  | mismatchMoltype
  | mismatchSeed
  | mismatchScaled
  | cannotDownsample
  deriving DecidableEq, Repr

/-- Modelled from the spec: a FracMinHash sketch (`KmerMinHash` in
sourmash): a finite set of 64-bit hashes plus the descriptor
`(k, scaled, moltype, seed)`.  The `md5` fingerprint is carried as an
uninterpreted identifier string (no property below inspects its
computation).  `moltype` is embedded as a numeric tag
(`hash_function`). -/
structure KmerMinHash where
  ksize : Nat
  scaled : Nat
  seed : Nat
  hash_function : Nat
  md5 : String
  hashes : Finset Nat
  deriving DecidableEq

/-- Modelled from the spec: `max_hash = floor(2^64 / scaled)` (sourmash
uses the top of the 64-bit range; the exact constant is irrelevant to
every property below). -/
def maxHashForScaled (scaled : Nat) : Nat :=
  if scaled = 0 then 0 else (2 ^ 64 - 1) / scaled

/-- Number of hashes in the sketch (sourmash `size()`). -/
def KmerMinHash.size (mh : KmerMinHash) : Nat := mh.hashes.card

/-- Re-scale a sketch to a (coarser) scaled value: retain only hashes
below the new `max_hash`.  This is the downsampling step applied inside
`count_common` when the flag is set. -/
def KmerMinHash.applyScaled (mh : KmerMinHash) (newScaled : Nat) : KmerMinHash :=
  { mh with scaled := newScaled,
            hashes := mh.hashes.filter (fun h => h ≤ maxHashForScaled newScaled) }

/-- Cardinality of the hash intersection of two sketches. -/
def intersectionCard (a b : KmerMinHash) : Nat := (a.hashes ∩ b.hashes).card

/-- Modelled from the spec (section 4.1): sourmash
`count_common(a, b, downsample_if_needed)` returns `|a ∩ b|`.  The
descriptors must agree on `k`, moltype and seed; when the scaled values
differ, the call downsamples both sides to the coarser scaled if the
flag is set and fails with `MismatchScaled` otherwise. -/
def count_common (a b : KmerMinHash) (downsample : Bool) : Except SketchError Nat :=
  if a.ksize ≠ b.ksize then .error .mismatchKSizes
  else if a.hash_function ≠ b.hash_function then .error .mismatchMoltype
  else if a.seed ≠ b.seed then .error .mismatchSeed
  else if a.scaled = b.scaled then .ok (intersectionCard a b)
  else if downsample then
    .ok (intersectionCard (a.applyScaled (max a.scaled b.scaled))
          (b.applyScaled (max a.scaled b.scaled)))
  else .error .mismatchScaled

/-- Modelled from the spec (section 4.1): sourmash
`remove_from(target, subtrahend)` requires comparable descriptors and
removes the subtrahend hashes from the target. -/
def remove_from (target sub : KmerMinHash) : Except SketchError KmerMinHash :=
  if target.ksize ≠ sub.ksize then .error .mismatchKSizes
  else if target.hash_function ≠ sub.hash_function then .error .mismatchMoltype
  else if target.seed ≠ sub.seed then .error .mismatchSeed
  else .ok { target with hashes := target.hashes \ sub.hashes }

/-- Overlap record held on the gather heap (`PrefetchResult` in
`src/utils.rs`). -/
structure PrefetchResult where
  name : String
  md5sum : String
  minhash : KmerMinHash
  overlap : Nat
  deriving DecidableEq

/-- The prefetch kernel of `src/utils.rs` (`prefetch`, lines 60-81):
re-score every sketch on the heap against `query_mh` with
`count_common(..., true)` and retain those whose overlap reaches
`threshold_hashes`.  The rayon heap-to-heap `filter_map` is embedded as
a list `filterMap`. -/
def prefetch (query_mh : KmerMinHash) (sketchlist : List PrefetchResult)
    (threshold_hashes : Nat) : List PrefetchResult :=
  sketchlist.filterMap fun result =>
    match count_common result.minhash query_mh true with
    | .ok overlap =>
        if threshold_hashes ≤ overlap then some { result with overlap := overlap } else none
    | .error _ => none

/-- A sketch slot inside a loaded signature: either a MinHash sketch or
a sketch of some other kind (the `Sketch::MinHash` match in
`load_sketches_above_threshold`). -/
inductive SketchT where
  | minhash (mh : KmerMinHash)
  | other
  deriving DecidableEq

/-- A catalog record of the against collection, already materialised:
its display name, record md5 and the sketches of its signature. -/
structure RecordC where
  name : String
  md5 : String
  sketches : List SketchT
  deriving DecidableEq

/-- The initial above-threshold load of `src/utils.rs`
(`load_sketches_above_threshold`, lines 253-311): for every record of
the against collection and every MinHash sketch in its signature,
compute `count_common(against_mh, query, true)` and keep a
`PrefetchResult` when the overlap reaches the threshold.  IO failures
of `sig_from_record` are environment behaviour and are not embedded:
every record materialises its sketch list. -/
def load_sketches_above_threshold (against_collection : List RecordC)
    (query : KmerMinHash) (threshold_hashes : Nat) : List PrefetchResult :=
  against_collection.flatMap fun arec =>
    arec.sketches.filterMap fun sk =>
      match sk with
      | .minhash against_mh =>
          match count_common against_mh query true with
          | .ok overlap =>
              if threshold_hashes ≤ overlap then
                some { name := arec.name, md5sum := against_mh.md5,
                       minhash := against_mh, overlap := overlap }
              else none
          | .error _ => none
      | .other => none

/-- Choice function of the Rust `BinaryHeap<PrefetchResult>`: keep the
entry with the larger overlap (ties resolved towards the accumulator,
matching the unspecified tie order of the heap with one concrete
choice). -/
def pickBetter (b e : PrefetchResult) : PrefetchResult :=
  if b.overlap < e.overlap then e else b

/-- The `peek` of the Rust `BinaryHeap<PrefetchResult>`: an entry of
maximal `overlap` (the heap's `Ord` compares only `overlap`). -/
def peekBest : List PrefetchResult → Option PrefetchResult
  | [] => none
  | x :: xs => some (xs.foldl pickBetter x)

/-- One output row of `consume_query_by_gather` (the CSV schema
`query_filename,rank,query_name,query_md5,match_name,match_md5,intersect_bp`;
the value written in the `intersect_bp` column is `best_element.overlap`). -/
structure GatherRow where
  query_filename : String
  rank : Nat
  query_name : String
  query_md5 : String
  match_name : String
  match_md5 : String
  overlap : Nat
  deriving DecidableEq

/-- The gather loop body of `consume_query_by_gather`
(`src/utils.rs`, lines 510-549): while the heap is non-empty, peek the
best element, subtract its hashes from the residual query
(`remove_from`; on error the Rust function returns `Err` and emits
nothing further), write one row carrying the stored overlap of the best
element, then rebuild the heap with `prefetch` against the residual
query at the same threshold and advance `rank`.  `fuel` bounds the
number of iterations (the Rust loop runs until the heap empties; every
property below holds for all fuel values, hence for the value at which
the run stabilises). -/
def gatherSteps (location qname qmd5 : String) (threshold_hashes : Nat) :
    Nat → KmerMinHash → List PrefetchResult → Nat → List GatherRow
  | 0, _, _, _ => []
  | fuel + 1, query_mh, matching_sketches, rank =>
    match peekBest matching_sketches with
    | none => []
    | some best =>
      match remove_from query_mh best.minhash with
      | .error _ => []
      | .ok residual =>
        { query_filename := location, rank := rank, query_name := qname,
          query_md5 := qmd5, match_name := best.name, match_md5 := best.md5sum,
          overlap := best.overlap } ::
        gatherSteps location qname qmd5 threshold_hashes fuel residual
          (prefetch residual matching_sketches threshold_hashes) (rank + 1)

/-- Rows of a single-query gather run (`consume_query_by_gather`,
`src/utils.rs` lines 459-551), starting at rank 0 from the initial
matchlist. -/
def consume_query_by_gather (location qname qmd5 : String) (query_mh : KmerMinHash)
    (matchlist : List PrefetchResult) (threshold_hashes : Nat) (fuel : Nat) :
    List GatherRow :=
  gatherSteps location qname qmd5 threshold_hashes fuel query_mh matchlist 0

/-- Descriptor comparability that `count_common` with the downsample
flag set requires: equal `k`, moltype and seed (any scaled pair can be
reconciled by downsampling to the coarser side). -/
def comparableParams (a b : KmerMinHash) : Prop :=
  a.ksize = b.ksize ∧ a.hash_function = b.hash_function ∧ a.seed = b.seed

instance (a b : KmerMinHash) : Decidable (comparableParams a b) := by
  unfold comparableParams; infer_instance

/-- Overlap of two sketches after reconciling their scaled values to
the coarser side (the value `count_common` with the downsample flag
returns on comparable sketches). -/
def downsampledOverlap (a b : KmerMinHash) : Nat :=
  if a.scaled = b.scaled then intersectionCard a b
  else intersectionCard (a.applyScaled (max a.scaled b.scaled))
        (b.applyScaled (max a.scaled b.scaled))

/-- Threshold conversion of `src/fastgather.rs` (lines 68-77):
`threshold_hashes = if threshold_bp / scaled > 0 then it else 1`. -/
def fastgather_threshold_hashes (threshold_bp scaled : Nat) : Nat :=
  let x := threshold_bp / scaled
  if 0 < x then x else 1

/-- Threshold conversion of `src/mastiff_manygather.rs` (line 56):
`threshold = threshold_bp / selection.scaled()`, with no lower clamp. -/
def mastiff_manygather_threshold (threshold_bp scaled : Nat) : Nat :=
  threshold_bp / scaled

/-- A sketch loaded into memory with its metadata (`SmallSignature` in
the sources). -/
structure SmallSignature where
  location : String
  name : String
  md5sum : String
  minhash : KmerMinHash
  deriving DecidableEq

/-- First MinHash sketch of a signature (sourmash
`Signature::minhash()`), used by the manysearch against loop. -/
def firstMinhash : List SketchT → Option KmerMinHash
  | [] => none
  | .minhash mh :: _ => some mh
  | .other :: rest => firstMinhash rest

namespace Multisearch

/-- Output row of `src/multisearch.rs` (its `MultiSearchResult`
variant). -/
structure MultiSearchResult where
  query_name : String
  query_md5 : String
  match_name : String
  match_md5 : String
  containment : ℚ
  max_containment : ℚ
  jaccard : ℚ
  intersect_hashes : ℚ
  deriving DecidableEq

/-- Comparison loop of `src/multisearch.rs` (`multisearch`, lines
60-101): for every against sketch and every query sketch, compute the
overlap with `count_common(query, against, false)` and push a row when
`containment_query_in_target > threshold` (strict).  The Rust
`.unwrap()` on the overlap panics on incomparable sketches, aborting
the run with no row for that pair; the embedding emits no row there. -/
def multisearchRows (queries against_list : List SmallSignature) (threshold : ℚ) :
    List MultiSearchResult :=
  against_list.flatMap fun against =>
    queries.filterMap fun query =>
      match count_common query.minhash against.minhash false with
      | .error _ => none
      | .ok ov =>
        let overlap : ℚ := (ov : ℚ)
        let query_size : ℚ := (query.minhash.size : ℚ)
        let target_size : ℚ := (against.minhash.size : ℚ)
        let containment_query_in_target := overlap / query_size
        let containment_in_target := overlap / target_size
        if threshold < containment_query_in_target then
          some { query_name := query.name, query_md5 := query.md5sum,
                 match_name := against.name, match_md5 := against.md5sum,
                 containment := containment_query_in_target,
                 max_containment := max containment_query_in_target containment_in_target,
                 jaccard := overlap / (target_size + query_size - overlap),
                 intersect_hashes := overlap }
        else none

end Multisearch

namespace Manysearch

/-- Output row of `src/manysearch.rs` (the `SearchResult` of
`src/utils.rs`, lines 583-592). -/
structure SearchResult where
  query_name : String
  query_md5 : String
  match_name : String
  containment : ℚ
  intersect_hashes : Nat
  match_md5 : Option String
  jaccard : Option ℚ
  max_containment : Option ℚ
  deriving DecidableEq

/-- Comparison loop of `src/manysearch.rs` (`manysearch`, lines
67-137): for every against record with a MinHash sketch and every
query, compute `count_common(query, against, true)` and push a row when
`containment_query_in_target > threshold` (strict).  The cooperative
interruption check is concurrency behaviour and is erased. -/
def manysearchRows (query_sketchlist : List SmallSignature)
    (against_collection : List RecordC) (threshold : ℚ) : List SearchResult :=
  against_collection.flatMap fun arec =>
    match firstMinhash arec.sketches with
    | none => []
    | some against_mh =>
      query_sketchlist.filterMap fun query =>
        match count_common query.minhash against_mh true with
        | .error _ => none
        | .ok ov =>
          let overlap : ℚ := (ov : ℚ)
          let query_size : ℚ := (query.minhash.size : ℚ)
          let target_size : ℚ := (against_mh.size : ℚ)
          let containment_query_in_target := overlap / query_size
          let containment_in_target := overlap / target_size
          if threshold < containment_query_in_target then
            some { query_name := query.name, query_md5 := query.md5sum,
                   match_name := arec.name,
                   containment := containment_query_in_target,
                   intersect_hashes := ov,
                   match_md5 := some arec.md5,
                   jaccard := some (overlap / (target_size + query_size - overlap)),
                   max_containment :=
                     some (max containment_query_in_target containment_in_target) }
          else none

end Manysearch

/-- Modelled from the spec (section 4.1): sourmash
`downsample_scaled` requires the new scaled to be at least the current
one and retains only hashes below the new `max_hash`. -/
def downsample_scaled (mh : KmerMinHash) (newScaled : Nat) :
    Except SketchError KmerMinHash :=
  if newScaled < mh.scaled then .error .cannotDownsample
  else .ok (mh.applyScaled newScaled)

/-- Truncating cast of a non-negative `f64` to `usize` (Rust `as usize`
saturates negative values to 0). -/
def f64AsUsize (x : ℚ) : Nat := (⌊x⌋).toNat

namespace ManysearchRocksdb

/-- Output row of `src/manysearch_rocksdb.rs` (its `SearchResult`
variant).  The columns that this code path always leaves empty
(`match_md5`, `jaccard`, `max_containment`, the abundance columns and
the remaining ANI aggregates, all pushed as `None`) are omitted. -/
structure SearchResult where
  query_name : String
  query_md5 : String
  match_name : String
  containment : ℚ
  intersect_hashes : Nat
  ksize : Nat
  scaled : Nat
  moltype : Nat
  query_containment_ani : Option ℚ
  deriving DecidableEq

/-- Modelled from the spec (section 4.7): the inverted index is a
persistent map from hash to subject ids; `counter_for_query` counts,
for each subject, how many query hashes hit it, and
`matches_from_counter(counter, min_count)` yields `(subject, overlap)`
for subjects whose count reaches `min_count`.  The index is embedded as
the list of (subject path, subject sketch) pairs it was built from. -/
def matches_from_counter (db : List (String × KmerMinHash))
    (query_mh : KmerMinHash) (minCount : Nat) : List (String × Nat) :=
  db.filterMap fun subj =>
    let ov := (query_mh.hashes ∩ subj.2.hashes).card
    if minCount ≤ ov then some (subj.1, ov) else none

/-- Per-query body of `src/manysearch_rocksdb.rs` (`manysearch_rocksdb`,
lines 100-146): downsample the query to the resolved scaled (the
`.expect` panic on failure emits nothing), run the counter, take
matches at `min_count = minimum_containment as usize`, then keep rows
with `containment >= minimum_containment` (non-strict).  `aniF` stands
for sourmash `ani_from_containment` (a real-valued function whose
values no property below inspects). -/
def rowsForQuery (aniF : ℚ → ℚ → ℚ) (db : List (String × KmerMinHash))
    (set_scaled : Nat) (query_name query_md5 : String) (qmh : KmerMinHash)
    (minimum_containment : ℚ) : List SearchResult :=
  match downsample_scaled qmh set_scaled with
  | .error _ => []
  | .ok query_mh =>
    let query_size := query_mh.size
    (matches_from_counter db query_mh (f64AsUsize minimum_containment)).filterMap
      fun pm =>
        let containment : ℚ := (pm.2 : ℚ) / (query_size : ℚ)
        if minimum_containment ≤ containment then
          some { query_name := query_name, query_md5 := query_md5,
                 match_name := pm.1, containment := containment,
                 intersect_hashes := pm.2, ksize := query_mh.ksize,
                 scaled := query_mh.scaled, moltype := query_mh.hash_function,
                 query_containment_ani :=
                   some (aniF containment (query_mh.ksize : ℚ)) }
        else none

/-- All rows of a `manysearch_rocksdb` run over its query collection. -/
def manysearchRocksdbRows (aniF : ℚ → ℚ → ℚ) (db : List (String × KmerMinHash))
    (set_scaled : Nat) (queries : List SmallSignature) (minimum_containment : ℚ) :
    List SearchResult :=
  queries.flatMap fun q =>
    rowsForQuery aniF db set_scaled q.name q.md5sum q.minhash minimum_containment

end ManysearchRocksdb

namespace Pairwise

/-- Output row of `src/pairwise.rs` (the full `MultiSearchResult` with
metadata and optional ANI columns). -/
structure MultiSearchResult where
  query_name : String
  query_md5 : String
  match_name : String
  match_md5 : String
  ksize : Nat
  scaled : Nat
  moltype : Nat
  containment : ℚ
  max_containment : ℚ
  jaccard : ℚ
  intersect_hashes : ℚ
  query_containment_ani : Option ℚ
  match_containment_ani : Option ℚ
  average_containment_ani : Option ℚ
  max_containment_ani : Option ℚ
  deriving DecidableEq

/-- Inner-loop body of `src/pairwise.rs` (lines 71-118): compare
`query` and `against` with `count_common(..., false)` (the `.unwrap()`
panic on incomparable sketches aborts the run emitting nothing for the
pair) and build a row when either-direction containment strictly
exceeds the threshold.  `aniF` stands for sourmash
`ani_from_containment`; `ksizeF` is the selection ksize the Rust code
passes to it as `f64`. -/
def comparisonRow (aniF : ℚ → ℚ → ℚ) (ksizeF threshold : ℚ) (estimate_ani : Bool)
    (query against : SmallSignature) : Option MultiSearchResult :=
  match count_common query.minhash against.minhash false with
  | .error _ => none
  | .ok ov =>
    let overlap : ℚ := (ov : ℚ)
    let query1_size : ℚ := (query.minhash.size : ℚ)
    let query2_size : ℚ := (against.minhash.size : ℚ)
    let containment_q1_in_q2 := overlap / query1_size
    let containment_q2_in_q1 := overlap / query2_size
    if threshold < containment_q1_in_q2 ∨ threshold < containment_q2_in_q1 then
      some { query_name := query.name, query_md5 := query.md5sum,
             match_name := against.name, match_md5 := against.md5sum,
             ksize := query.minhash.ksize, scaled := query.minhash.scaled,
             moltype := query.minhash.hash_function,
             containment := containment_q1_in_q2,
             max_containment := max containment_q1_in_q2 containment_q2_in_q1,
             jaccard := overlap / (query1_size + query2_size - overlap),
             intersect_hashes := overlap,
             query_containment_ani :=
               if estimate_ani then some (aniF containment_q1_in_q2 ksizeF) else none,
             match_containment_ani :=
               if estimate_ani then some (aniF containment_q2_in_q1 ksizeF) else none,
             average_containment_ani :=
               if estimate_ani then
                 some ((aniF containment_q1_in_q2 ksizeF
                        + aniF containment_q2_in_q1 ksizeF) / 2)
               else none,
             max_containment_ani :=
               if estimate_ani then
                 some (max (aniF containment_q1_in_q2 ksizeF)
                        (aniF containment_q2_in_q1 ksizeF))
               else none }
    else none

/-- Self-comparison row sent by the `write_all` branch of
`src/pairwise.rs` (lines 125-156). -/
def selfRow (query : SmallSignature) (estimate_ani : Bool) : MultiSearchResult :=
  { query_name := query.name, query_md5 := query.md5sum,
    match_name := query.name, match_md5 := query.md5sum,
    ksize := query.minhash.ksize, scaled := query.minhash.scaled,
    moltype := query.minhash.hash_function,
    containment := 1, max_containment := 1, jaccard := 1,
    intersect_hashes := (query.minhash.size : ℚ),
    query_containment_ani := if estimate_ani then some 1 else none,
    match_containment_ani := if estimate_ani then some 1 else none,
    average_containment_ani := if estimate_ani then some 1 else none,
    max_containment_ani := if estimate_ani then some 1 else none }

/-- Main loop of `src/pairwise.rs` (`pairwise`, lines 70-157): worker
`i` compares sketch `i` against every sketch `j > i`
(`sketches.iter().skip(idx + 1)`), then, when `write_all` is set, sends
one self-comparison row.  The embedding instruments each emitted row
with the indices `(i, j)` of the compared sketches (the pair identity
the properties speak about); `j` ranges over the true positions
`i+1, ..., n-1` via `enumFrom`. -/
def pairwiseRows (aniF : ℚ → ℚ → ℚ) (sketches : List SmallSignature)
    (ksizeF threshold : ℚ) (estimate_ani write_all : Bool) :
    List (Nat × Nat × MultiSearchResult) :=
  sketches.enum.flatMap fun iq =>
    ((List.enumFrom (iq.1 + 1) (sketches.drop (iq.1 + 1))).filterMap fun ja =>
        (comparisonRow aniF ksizeF threshold estimate_ani iq.2 ja.2).map
          fun row => (iq.1, ja.1, row))
    ++ (if write_all then [(iq.1, iq.1, selfRow iq.2 estimate_ani)] else [])

end Pairwise

/-- Failure modes of the fastgather query-selection phase. -/
inductive FastgatherError where
  | noQuerySketch
  | multipleQueries
  deriving DecidableEq

/-- Last MinHash sketch of a signature's sketch list, folded over a
prior candidate (the inner `for sketch in sig.iter()` of
`src/fastgather.rs`). -/
def lastMinhashOf (sks : List SketchT) (acc : Option KmerMinHash) :
    Option KmerMinHash :=
  sks.foldl (fun a sk => match sk with | .minhash mh => some mh | .other => a) acc

/-- Query-selection loop of `src/fastgather.rs` (lines 33-51): iterate
every record of the selected query collection and keep the last
successfully loaded MinHash.  Each record is embedded as
`some sketches` when `sig_for_dataset(...).select(...)` succeeds and
`none` when it fails (the `else eprintln` branch). -/
def fastgatherPickQuery (query_records : List (Option (List SketchT))) :
    Option KmerMinHash :=
  query_records.foldl
    (fun acc orec =>
      match orec with
      | some sks => lastMinhashOf sks acc
      | none => acc)
    none

/-- Query validation of `src/fastgather.rs` (lines 33-61): after the
selection loop, bail when no query sketch matched, then bail when the
selected query collection holds more than one record
(`query_collection.len() != 1`). -/
def fastgatherQueryCheck (query_records : List (Option (List SketchT))) :
    Except FastgatherError KmerMinHash :=
  match fastgatherPickQuery query_records with
  | none => .error .noQuerySketch
  | some mh =>
      if query_records.length ≠ 1 then .error .multipleQueries else .ok mh

/-- A child collection of a `MultiCollection`
(`src/utils/multicollection.rs`), reduced to the one bit the flag
bookkeeping is about: whether the collection is backed by the RocksDB
inverted index. -/
structure CollectionM where
  revindex : Bool
  deriving DecidableEq

/-- The `MultiCollection` of `src/utils/multicollection.rs` (lines
25-37): child collections plus the `contains_revindex` flag set by its
constructor. -/
structure MultiCollection where
  collections : List CollectionM
  contains_revindex : Bool
  deriving DecidableEq

/-- Constructor `MultiCollection::new`. -/
def MultiCollection.new (collections : List CollectionM)
    (contains_revindex : Bool) : MultiCollection :=
  ⟨collections, contains_revindex⟩

/-- Loader `MultiCollection::from_zipfile` (lines 131-137): wraps one
plain collection, flag `false`. -/
def MultiCollection.from_zipfile : MultiCollection :=
  .new [⟨false⟩] false

/-- Loader `MultiCollection::from_rocksdb` (lines 140-165): wraps one
RocksDB-backed collection, flag `true`. -/
def MultiCollection.from_rocksdb : MultiCollection :=
  .new [⟨true⟩] true

/-- Loader `MultiCollection::from_signature` (lines 189-201): wraps one
plain collection, flag `false`. -/
def MultiCollection.from_signature : MultiCollection :=
  .new [⟨false⟩] false

/-- Conversion `From<Collection> for MultiCollection` (lines 321-326):
always passes `false` for the flag (the source carries the comment
`@CTB check if revindex`). -/
def MultiCollection.fromCollection (coll : CollectionM) : MultiCollection :=
  .new [coll] false

/-- Merge `From<Vec<MultiCollection>> for MultiCollection` (lines
329-340): concatenates the children and always passes `false` for the
flag (the source carries the comment `@CTB check bool`). -/
def MultiCollection.fromVec (multi : List MultiCollection) : MultiCollection :=
  .new (multi.flatMap (fun mc => mc.collections)) false

/-- Whether some child collection is backed by the inverted index. -/
def MultiCollection.someChildRevindex (m : MultiCollection) : Bool :=
  m.collections.any (fun c => c.revindex)

/-- Warning condition of `MultiCollection::load_sketches` (lines
246-249): the load-into-memory warning fires exactly when
`contains_revindex` is set. -/
def MultiCollection.loadSketchesWarns (m : MultiCollection) : Bool :=
  m.contains_revindex

/-- Placeholder interpretation of `ani_from_containment` used to
instantiate concrete runs (the properties hold for every
interpretation; this one returns the containment unchanged). -/
def aniConst : ℚ → ℚ → ℚ := fun c _ => c

/-- Example query sketch: spec scenario S1 (`Q = {1,...,10}`). -/
def exQuery : KmerMinHash := ⟨21, 1, 42, 0, "qmd5", {1, 2, 3, 4, 5, 6, 7, 8, 9, 10}⟩

/-- Example subject sketch: spec scenario S1 (`S1 = {1,...,5}`). -/
def exS1 : KmerMinHash := ⟨21, 1, 42, 0, "s1md5", {1, 2, 3, 4, 5}⟩

/-- Example subject sketch: spec scenario S1 (`S2 = {6,7,8}`). -/
def exS2 : KmerMinHash := ⟨21, 1, 42, 0, "s2md5", {6, 7, 8}⟩

/-- Example matchlist heap for scenario S1, scored against `exQuery`. -/
def exHeap : List PrefetchResult :=
  [⟨"S1", "s1md5", exS1, 5⟩, ⟨"S2", "s2md5", exS2, 3⟩]

/-- Example fine-scaled query (scaled 1) for the downsample-flag
property. -/
def exFineQuery : KmerMinHash := ⟨21, 1, 42, 0, "fq", {1, 2, 3}⟩

/-- Example coarse-scaled candidate (scaled 2), incomparable with
`exFineQuery` at a fixed scaled. -/
def exCoarse : KmerMinHash := ⟨21, 2, 42, 0, "cs", {1, 2, 3}⟩

/-- Example query records for the fastgather validation: two records,
each with one selectable MinHash sketch. -/
def exQueryRecords : List (Option (List SketchT)) :=
  [some [SketchT.minhash exS1], some [SketchT.minhash exS2]]

/-- Example subject sketch stored in the inverted index: hashes
`{1, 3}`. -/
def cexSubject : KmerMinHash := ⟨21, 1, 42, 0, "smd5", {1, 3}⟩

/-- Example one-subject inverted index. -/
def cexDb : List (String × KmerMinHash) := [("subj", cexSubject)]

/-- Example rocksdb-manysearch query with two hashes, overlapping the
indexed subject in exactly one. -/
def cexRockQuery : SmallSignature := ⟨"loc", "RQ", "rqmd5", ⟨21, 1, 42, 0, "rqmd5", {1, 2}⟩⟩

/-- Example pairwise sketch `A = {1, 2}` (spec scenario S4). -/
def exPairA : SmallSignature := ⟨"pa", "A", "amd5", ⟨21, 1, 42, 0, "amd5", {1, 2}⟩⟩

/-- Example pairwise sketch `B = {2, 3}` (spec scenario S4). -/
def exPairB : SmallSignature := ⟨"pb", "B", "bmd5", ⟨21, 1, 42, 0, "bmd5", {2, 3}⟩⟩

/-- Example multisearch query signature wrapping `exS1`. -/
def exMultiQuery : SmallSignature := ⟨"lq", "Q", "qmd5", exS1⟩

/-- Example multisearch against signature wrapping `exS1`. -/
def exMultiAgainst : SmallSignature := ⟨"la", "A", "amd5", exS1⟩

/-- The multisearch row produced by comparing `exMultiQuery` with
`exMultiAgainst` (full containment). -/
def exMultiRow : Multisearch.MultiSearchResult :=
  ⟨"Q", "qmd5", "A", "amd5", 1, 1, 1, 5⟩

/-! ## Helper lemmas about the sketch operations -/

theorem count_common_true_ok_iff (a b : KmerMinHash) (o : Nat) :
    count_common a b true = .ok o ↔
      comparableParams a b ∧ o = downsampledOverlap a b := by
  unfold count_common comparableParams downsampledOverlap
  by_cases h1 : a.ksize = b.ksize <;>
    by_cases h2 : a.hash_function = b.hash_function <;>
      by_cases h3 : a.seed = b.seed <;>
        by_cases h4 : a.scaled = b.scaled <;>
          simp [h1, h2, h3, h4, eq_comm]

theorem remove_from_ok (q s r : KmerMinHash) (h : remove_from q s = .ok r) :
    r.ksize = q.ksize ∧ r.hash_function = q.hash_function ∧ r.seed = q.seed ∧
      r.scaled = q.scaled ∧ r.hashes ⊆ q.hashes := by
  unfold remove_from at h
  split_ifs at h
  injection h with h
  subst h
  exact ⟨rfl, rfl, rfl, rfl, Finset.sdiff_subset⟩

theorem count_common_true_mono (s q q2 : KmerMinHash)
    (hk : q2.ksize = q.ksize) (hf : q2.hash_function = q.hash_function)
    (hs : q2.seed = q.seed) (hsc : q2.scaled = q.scaled)
    (hsub : q2.hashes ⊆ q.hashes) (v : Nat)
    (h : count_common s q true = .ok v) :
    ∃ v2, count_common s q2 true = .ok v2 ∧ v2 ≤ v := by
  unfold count_common at h ⊢
  rw [hk, hf, hs, hsc]
  split_ifs at h ⊢
  · injection h with h
    refine ⟨intersectionCard s q2, rfl, ?_⟩
    subst h
    unfold intersectionCard
    exact Finset.card_le_card (Finset.inter_subset_inter (le_refl _) hsub)
  · injection h with h
    refine ⟨_, rfl, ?_⟩
    subst h
    unfold intersectionCard KmerMinHash.applyScaled
    exact Finset.card_le_card
      (Finset.inter_subset_inter (le_refl _) (Finset.filter_subset_filter _ hsub))

theorem prefetch_mem (query_mh : KmerMinHash) (l : List PrefetchResult) (T : Nat)
    (r : PrefetchResult) (h : r ∈ prefetch query_mh l T) :
    ∃ e ∈ l, count_common e.minhash query_mh true = .ok r.overlap ∧
      T ≤ r.overlap ∧ r = { e with overlap := r.overlap } := by
  unfold prefetch at h
  rw [List.mem_filterMap] at h
  obtain ⟨e, he, hf⟩ := h
  revert hf
  cases hcc : count_common e.minhash query_mh true with
  | error err => intro hf; simp at hf
  | ok o =>
    intro hf
    by_cases hT : T ≤ o
    · simp only [hT, if_true] at hf
      injection hf with hf
      subst hf
      exact ⟨e, he, hcc, hT, rfl⟩
    · simp [hT] at hf

theorem prefetch_scored (query_mh : KmerMinHash) (l : List PrefetchResult) (T : Nat)
    (r : PrefetchResult) (h : r ∈ prefetch query_mh l T) :
    count_common r.minhash query_mh true = .ok r.overlap := by
  obtain ⟨e, _, hcc, _, hr⟩ := prefetch_mem query_mh l T r h
  rw [hr]
  exact hcc

theorem prefetch_threshold_le (query_mh : KmerMinHash) (l : List PrefetchResult)
    (T : Nat) (r : PrefetchResult) (h : r ∈ prefetch query_mh l T) : T ≤ r.overlap :=
  (prefetch_mem query_mh l T r h).choose_spec.2.2.1

theorem prefetch_overlap_le (q q2 : KmerMinHash) (l : List PrefetchResult) (T B : Nat)
    (hk : q2.ksize = q.ksize) (hf : q2.hash_function = q.hash_function)
    (hs : q2.seed = q.seed) (hsc : q2.scaled = q.scaled)
    (hsub : q2.hashes ⊆ q.hashes)
    (hscored : ∀ e ∈ l, count_common e.minhash q true = .ok e.overlap)
    (hb : ∀ e ∈ l, e.overlap ≤ B) :
    ∀ r ∈ prefetch q2 l T, r.overlap ≤ B := by
  intro r hr
  obtain ⟨e, he, hcc, _, _⟩ := prefetch_mem q2 l T r hr
  obtain ⟨v2, hv2, hle⟩ :=
    count_common_true_mono e.minhash q q2 hk hf hs hsc hsub e.overlap (hscored e he)
  rw [hcc] at hv2
  injection hv2 with hv2
  calc r.overlap = v2 := hv2
    _ ≤ e.overlap := hle
    _ ≤ B := hb e he

theorem foldl_pickBetter_mem (xs : List PrefetchResult) (a : PrefetchResult) :
    xs.foldl pickBetter a = a ∨ xs.foldl pickBetter a ∈ xs := by
  induction xs generalizing a with
  | nil => left; rfl
  | cons x xs ih =>
    rcases ih (pickBetter a x) with h | h
    · by_cases hx : a.overlap < x.overlap
      · right
        rw [List.foldl_cons, h]
        simp [pickBetter, hx]
      · left
        rw [List.foldl_cons, h]
        simp [pickBetter, hx]
    · right
      exact List.mem_cons_of_mem _ h

theorem foldl_pickBetter_le (xs : List PrefetchResult) (a : PrefetchResult) :
    a.overlap ≤ (xs.foldl pickBetter a).overlap ∧
      ∀ e ∈ xs, e.overlap ≤ (xs.foldl pickBetter a).overlap := by
  induction xs generalizing a with
  | nil => exact ⟨le_refl _, by simp⟩
  | cons x xs ih =>
    have h1 := ih (pickBetter a x)
    have hax : a.overlap ≤ (pickBetter a x).overlap := by
      unfold pickBetter
      split
      · exact le_of_lt (by assumption)
      · exact le_refl _
    have hxx : x.overlap ≤ (pickBetter a x).overlap := by
      unfold pickBetter
      split
      · exact le_refl _
      · exact le_of_not_lt (by assumption)
    refine ⟨le_trans hax h1.1, ?_⟩
    intro e he
    rcases List.mem_cons.mp he with rfl | he2
    · exact le_trans hxx h1.1
    · exact h1.2 e he2

theorem peekBest_mem (l : List PrefetchResult) (b : PrefetchResult)
    (h : peekBest l = some b) : b ∈ l := by
  cases l with
  | nil => exact (Option.noConfusion h)
  | cons x xs =>
    unfold peekBest at h
    injection h with h
    rcases foldl_pickBetter_mem xs x with h2 | h2
    · rw [← h, h2]; exact List.mem_cons_self _ _
    · rw [← h]; exact List.mem_cons_of_mem _ h2

theorem peekBest_le (l : List PrefetchResult) (b : PrefetchResult)
    (h : peekBest l = some b) : ∀ e ∈ l, e.overlap ≤ b.overlap := by
  cases l with
  | nil => intro e he; simp at he
  | cons x xs =>
    unfold peekBest at h
    injection h with h
    intro e he
    rcases List.mem_cons.mp he with rfl | he2
    · rw [← h]; exact (foldl_pickBetter_le xs e).1
    · rw [← h]; exact (foldl_pickBetter_le xs x).2 e he2


theorem gatherSteps_zero (location qname qmd5 : String) (T : Nat) (q : KmerMinHash)
    (heap : List PrefetchResult) (rank : Nat) :
    gatherSteps location qname qmd5 T 0 q heap rank = [] := rfl

theorem gatherSteps_succ_none (location qname qmd5 : String) (T n : Nat)
    (q : KmerMinHash) (heap : List PrefetchResult) (rank : Nat)
    (hpk : peekBest heap = none) :
    gatherSteps location qname qmd5 T (n + 1) q heap rank = [] := by
  unfold gatherSteps
  simp only [hpk]

theorem gatherSteps_succ_err (location qname qmd5 : String) (T n : Nat)
    (q : KmerMinHash) (heap : List PrefetchResult) (rank : Nat)
    (best : PrefetchResult) (err : SketchError)
    (hpk : peekBest heap = some best)
    (hrm : remove_from q best.minhash = .error err) :
    gatherSteps location qname qmd5 T (n + 1) q heap rank = [] := by
  unfold gatherSteps
  simp only [hpk, hrm]

theorem gatherSteps_succ_ok (location qname qmd5 : String) (T n : Nat)
    (q : KmerMinHash) (heap : List PrefetchResult) (rank : Nat)
    (best : PrefetchResult) (residual : KmerMinHash)
    (hpk : peekBest heap = some best)
    (hrm : remove_from q best.minhash = .ok residual) :
    gatherSteps location qname qmd5 T (n + 1) q heap rank =
      { query_filename := location, rank := rank, query_name := qname,
        query_md5 := qmd5, match_name := best.name, match_md5 := best.md5sum,
        overlap := best.overlap } ::
      gatherSteps location qname qmd5 T n residual (prefetch residual heap T)
        (rank + 1) := by
  simp only [gatherSteps, hpk, hrm]

theorem gatherSteps_overlap_le (location qname qmd5 : String) (T : Nat) :
    ∀ (fuel : Nat) (q : KmerMinHash) (heap : List PrefetchResult) (rank B : Nat),
      (∀ e ∈ heap, count_common e.minhash q true = .ok e.overlap) →
      (∀ e ∈ heap, e.overlap ≤ B) →
      ∀ r ∈ gatherSteps location qname qmd5 T fuel q heap rank, r.overlap ≤ B := by
  intro fuel
  induction fuel with
  | zero =>
    intro q heap rank B _ _ r hr
    rw [gatherSteps_zero] at hr
    simp at hr
  | succ n ih =>
    intro q heap rank B hsc hb r hr
    cases hpk : peekBest heap with
    | none =>
      rw [gatherSteps_succ_none location qname qmd5 T n q heap rank hpk] at hr
      simp at hr
    | some best =>
      cases hrm : remove_from q best.minhash with
      | error err =>
        rw [gatherSteps_succ_err location qname qmd5 T n q heap rank best err hpk hrm]
          at hr
        simp at hr
      | ok residual =>
        rw [gatherSteps_succ_ok location qname qmd5 T n q heap rank best residual
          hpk hrm] at hr
        rcases List.mem_cons.mp hr with rfl | hr2
        · exact hb best (peekBest_mem heap best hpk)
        · obtain ⟨hk, hf, hs, hscal, hsub⟩ := remove_from_ok q best.minhash residual hrm
          exact ih residual (prefetch residual heap T) (rank + 1) B
            (fun e he => prefetch_scored residual heap T e he)
            (prefetch_overlap_le q residual heap T B hk hf hs hscal hsub hsc hb)
            r hr2

theorem gatherSteps_chain (location qname qmd5 : String) (T : Nat) :
    ∀ (fuel : Nat) (q : KmerMinHash) (heap : List PrefetchResult) (rank : Nat),
      (∀ e ∈ heap, count_common e.minhash q true = .ok e.overlap) →
      List.Chain' (fun a b => b.overlap ≤ a.overlap)
        (gatherSteps location qname qmd5 T fuel q heap rank) := by
  intro fuel
  induction fuel with
  | zero =>
    intro q heap rank _
    rw [gatherSteps_zero]
    exact List.chain'_nil
  | succ n ih =>
    intro q heap rank hsc
    cases hpk : peekBest heap with
    | none =>
      rw [gatherSteps_succ_none location qname qmd5 T n q heap rank hpk]
      exact List.chain'_nil
    | some best =>
      cases hrm : remove_from q best.minhash with
      | error err =>
        rw [gatherSteps_succ_err location qname qmd5 T n q heap rank best err hpk hrm]
        exact List.chain'_nil
      | ok residual =>
        rw [gatherSteps_succ_ok location qname qmd5 T n q heap rank best residual
          hpk hrm]
        rw [List.chain'_cons']
        obtain ⟨hk, hf, hs, hscal, hsub⟩ := remove_from_ok q best.minhash residual hrm
        constructor
        · intro y hy
          have hym : y ∈ gatherSteps location qname qmd5 T n residual
              (prefetch residual heap T) (rank + 1) := by
            cases hrest : gatherSteps location qname qmd5 T n residual
                (prefetch residual heap T) (rank + 1) with
            | nil => rw [hrest] at hy; simp at hy
            | cons z zs =>
              rw [hrest] at hy
              simp at hy
              subst hy
              exact List.mem_cons_self _ _
          exact gatherSteps_overlap_le location qname qmd5 T n residual
            (prefetch residual heap T) (rank + 1) best.overlap
            (fun e he => prefetch_scored residual heap T e he)
            (prefetch_overlap_le q residual heap T best.overlap hk hf hs hscal hsub hsc
              (peekBest_le heap best hpk))
            y hym
        · exact ih residual (prefetch residual heap T) (rank + 1)
            (fun e he => prefetch_scored residual heap T e he)

theorem gatherSteps_ranks (location qname qmd5 : String) (T : Nat) :
    ∀ (fuel : Nat) (q : KmerMinHash) (heap : List PrefetchResult) (rank : Nat),
      (gatherSteps location qname qmd5 T fuel q heap rank).map GatherRow.rank
        = List.range' rank (gatherSteps location qname qmd5 T fuel q heap rank).length := by
  intro fuel
  induction fuel with
  | zero => intro q heap rank; rw [gatherSteps_zero]; rfl
  | succ n ih =>
    intro q heap rank
    cases hpk : peekBest heap with
    | none => rw [gatherSteps_succ_none location qname qmd5 T n q heap rank hpk]; rfl
    | some best =>
      cases hrm : remove_from q best.minhash with
      | error err =>
        rw [gatherSteps_succ_err location qname qmd5 T n q heap rank best err hpk hrm]
        rfl
      | ok residual =>
        rw [gatherSteps_succ_ok location qname qmd5 T n q heap rank best residual
          hpk hrm]
        simp only [List.map_cons, List.length_cons, ih]
        rfl

theorem load_sketches_above_threshold_mem (against_collection : List RecordC)
    (query : KmerMinHash) (T : Nat) (r : PrefetchResult) :
    r ∈ load_sketches_above_threshold against_collection query T ↔
      ∃ arec ∈ against_collection, ∃ mh, SketchT.minhash mh ∈ arec.sketches ∧
        comparableParams mh query ∧ T ≤ downsampledOverlap mh query ∧
        r = ⟨arec.name, mh.md5, mh, downsampledOverlap mh query⟩ := by
  unfold load_sketches_above_threshold
  rw [List.mem_flatMap]
  constructor
  · rintro ⟨arec, ha, hr⟩
    rw [List.mem_filterMap] at hr
    obtain ⟨sk, hsk, hf⟩ := hr
    cases sk with
    | other => simp at hf
    | minhash mh =>
      dsimp only at hf
      revert hf
      cases hcc : count_common mh query true with
      | error e => intro hf; simp at hf
      | ok o =>
        intro hf
        by_cases hT : T ≤ o
        · simp only [hT, if_true] at hf
          injection hf with hf
          obtain ⟨hc, ho⟩ := (count_common_true_ok_iff mh query o).mp hcc
          subst ho
          subst hf
          exact ⟨arec, ha, mh, hsk, hc, hT, rfl⟩
        · simp [hT] at hf
  · rintro ⟨arec, ha, mh, hsk, hc, hT, rfl⟩
    refine ⟨arec, ha, ?_⟩
    rw [List.mem_filterMap]
    refine ⟨SketchT.minhash mh, hsk, ?_⟩
    have hcc : count_common mh query true = .ok (downsampledOverlap mh query) :=
      (count_common_true_ok_iff mh query _).mpr ⟨hc, rfl⟩
    simp [hcc, hT]

theorem gatherSteps_threshold_lb (location qname qmd5 : String) (T : Nat) :
    ∀ (fuel : Nat) (q : KmerMinHash) (heap : List PrefetchResult) (rank : Nat),
      (∀ e ∈ heap, T ≤ e.overlap) →
      ∀ r ∈ gatherSteps location qname qmd5 T fuel q heap rank, T ≤ r.overlap := by
  intro fuel
  induction fuel with
  | zero =>
    intro q heap rank _ r hr
    rw [gatherSteps_zero] at hr
    simp at hr
  | succ n ih =>
    intro q heap rank hinit r hr
    cases hpk : peekBest heap with
    | none =>
      rw [gatherSteps_succ_none location qname qmd5 T n q heap rank hpk] at hr
      simp at hr
    | some best =>
      cases hrm : remove_from q best.minhash with
      | error err =>
        rw [gatherSteps_succ_err location qname qmd5 T n q heap rank best err hpk hrm]
          at hr
        simp at hr
      | ok residual =>
        rw [gatherSteps_succ_ok location qname qmd5 T n q heap rank best residual
          hpk hrm] at hr
        rcases List.mem_cons.mp hr with rfl | hr2
        · exact hinit best (peekBest_mem heap best hpk)
        · exact ih residual (prefetch residual heap T) (rank + 1)
            (fun e he => prefetch_threshold_le residual heap T e he) r hr2

/-! ## Claim theorems -/

/-- C1: in every single-query gather run (`consume_query_by_gather`),
the ranks emitted are `0, 1, 2, ...` in emission order, and the overlap
emitted at each rank is at least the overlap emitted at the next rank.
The hypothesis states the program invariant of the initial matchlist:
every heap entry carries the overlap that `count_common` computes for
it against the query (which is how `load_sketches_above_threshold`
builds the matchlist handed to this function). -/
theorem gather_ranks_strictly_increasing_best_first
    (location qname qmd5 : String) (query_mh : KmerMinHash)
    (matchlist : List PrefetchResult) (threshold_hashes fuel : Nat)
    (hscored : ∀ e ∈ matchlist,
      count_common e.minhash query_mh true = .ok e.overlap) :
    ((consume_query_by_gather location qname qmd5 query_mh matchlist
          threshold_hashes fuel).map GatherRow.rank
        = List.range (consume_query_by_gather location qname qmd5 query_mh matchlist
            threshold_hashes fuel).length) ∧
    List.Chain' (fun a b => b.overlap ≤ a.overlap)
      (consume_query_by_gather location qname qmd5 query_mh matchlist
        threshold_hashes fuel) := by
  unfold consume_query_by_gather
  refine ⟨?_, gatherSteps_chain location qname qmd5 threshold_hashes fuel query_mh
    matchlist 0 hscored⟩
  rw [gatherSteps_ranks, List.range_eq_range']

/-- Witness for C1: the gather run of spec scenario S1 (query
`{1,...,10}`, subjects `{1,...,5}` and `{6,7,8}`, threshold 3). -/
theorem gather_ranks_strictly_increasing_best_first_witness :
    (∀ e ∈ exHeap, count_common e.minhash exQuery true = .ok e.overlap) ∧
    (((consume_query_by_gather "f" "q" "qmd5" exQuery exHeap 3 5).map GatherRow.rank
        = List.range (consume_query_by_gather "f" "q" "qmd5" exQuery exHeap 3 5).length) ∧
      List.Chain' (fun a b => b.overlap ≤ a.overlap)
        (consume_query_by_gather "f" "q" "qmd5" exQuery exHeap 3 5)) :=
  ⟨by decide, gather_ranks_strictly_increasing_best_first "f" "q" "qmd5" exQuery
    exHeap 3 5 (by decide)⟩

/-- C2: the above-threshold load retains exactly the candidate MinHash
sketches that are comparable with the query (equal `k`, moltype and
seed; scaled reconciled by downsampling) and whose (downsampled)
overlap with the query reaches the threshold, each retained
`PrefetchResult` recording that overlap; moreover `count_common` with
the downsample flag succeeds exactly on comparable sketches and then
returns the downsampled overlap. -/
theorem prefetch_kernel_retains_exactly_threshold :
    (∀ (against_collection : List RecordC) (query : KmerMinHash) (T : Nat)
        (r : PrefetchResult),
      r ∈ load_sketches_above_threshold against_collection query T ↔
        ∃ arec ∈ against_collection, ∃ mh, SketchT.minhash mh ∈ arec.sketches ∧
          comparableParams mh query ∧ T ≤ downsampledOverlap mh query ∧
          r = ⟨arec.name, mh.md5, mh, downsampledOverlap mh query⟩) ∧
    (∀ a b : KmerMinHash,
      (∃ o, count_common a b true = .ok o) ↔ comparableParams a b) ∧
    (∀ (a b : KmerMinHash) (o : Nat),
      count_common a b true = .ok o → o = downsampledOverlap a b) := by
  refine ⟨load_sketches_above_threshold_mem, ?_, ?_⟩
  · intro a b
    constructor
    · rintro ⟨o, ho⟩
      exact ((count_common_true_ok_iff a b o).mp ho).1
    · intro hc
      exact ⟨downsampledOverlap a b, (count_common_true_ok_iff a b _).mpr ⟨hc, rfl⟩⟩
  · intro a b o ho
    exact ((count_common_true_ok_iff a b o).mp ho).2

/-- Witness for C2: `count_common` on scenario-S1 sketches returns the
overlap 5 that the load records. -/
theorem prefetch_kernel_retains_exactly_threshold_witness :
    count_common exS1 exQuery true = .ok 5 ∧ 5 = downsampledOverlap exS1 exQuery :=
  ⟨by decide, prefetch_kernel_retains_exactly_threshold.2.2 exS1 exQuery 5 (by decide)⟩

/-- C4 counterexample: the claim says both gather paths use
`max(1, threshold_bp / scaled)`; at `threshold_bp = 50`,
`scaled = 100` the rocksdb-backed manygather path computes 0, not
`max 1 (50 / 100) = 1`. -/
theorem mastiff_threshold_lacks_min_clamp :
    fastgather_threshold_hashes 50 100 = 1 ∧
    mastiff_manygather_threshold 50 100 = 0 ∧
    mastiff_manygather_threshold 50 100 ≠ max 1 (50 / 100) := by decide

/-- C4 amended: the in-memory fastgather path computes
`max(1, threshold_bp / scaled)` (integer division); the rocksdb-backed
manygather path computes plain `threshold_bp / scaled` with no
minimum-1 clamp. -/
theorem threshold_conversion_formulas :
    (∀ threshold_bp scaled : Nat,
      fastgather_threshold_hashes threshold_bp scaled
        = max 1 (threshold_bp / scaled)) ∧
    (∀ threshold_bp scaled : Nat,
      mastiff_manygather_threshold threshold_bp scaled = threshold_bp / scaled) := by
  constructor
  · intro tb s
    show (if 0 < tb / s then tb / s else 1) = max 1 (tb / s)
    split_ifs with h <;> omega
  · intro tb s
    rfl

/-- C5: the claim (and the spec) demand the prefetch hot paths call
`count_common` with the downsample flag false, failing loudly on a
scaled mismatch; the code calls with the flag true, so a query at
scaled 1 against a candidate at scaled 2 — rejected by the
flag-false call — is silently downsampled and retained by both
`prefetch` and `load_sketches_above_threshold`. -/
theorem prefetch_hot_path_downsamples_silently :
    count_common exCoarse exFineQuery false = .error .mismatchScaled ∧
    (prefetch exFineQuery [⟨"S", "cs", exCoarse, 3⟩] 1).map
        (fun r => r.overlap) = [3] ∧
    (load_sketches_above_threshold [⟨"S", "smd5", [SketchT.minhash exCoarse]⟩]
        exFineQuery 1).map (fun r => r.overlap) = [3] := by decide

/-- C6: fastgather rejects the input whenever the selected query
collection holds more than one record: the post-loop validation bails
(either as `noQuerySketch` or as `multipleQueries`) instead of running
gather with the last loaded sketch. -/
theorem fastgather_rejects_multiple_query_sketches
    (query_records : List (Option (List SketchT)))
    (h : 1 < query_records.length) :
    ∃ e, fastgatherQueryCheck query_records = .error e := by
  unfold fastgatherQueryCheck
  cases fastgatherPickQuery query_records with
  | none => exact ⟨.noQuerySketch, rfl⟩
  | some mh =>
    have hne : query_records.length ≠ 1 := by omega
    exact ⟨.multipleQueries, by simp [hne]⟩

/-- Witness for C6: a two-record query collection is rejected. -/
theorem fastgather_rejects_multiple_query_sketches_witness :
    1 < exQueryRecords.length ∧
    ∃ e, fastgatherQueryCheck exQueryRecords = .error e :=
  ⟨by decide, fastgather_rejects_multiple_query_sketches exQueryRecords (by decide)⟩

/-- C8: the claim says `contains_revindex` is true iff some child
collection is rocksdb-backed; `from_rocksdb` does set it, but merging
through `From<Vec<MultiCollection>>` (and `From<Collection>`)
hard-codes the flag to false, so a merged MultiCollection with a
rocksdb-backed child carries `contains_revindex = false` and the
`load_sketches` warning does not fire for it. -/
theorem multicollection_merge_drops_revindex_flag :
    MultiCollection.from_rocksdb.contains_revindex = true ∧
    MultiCollection.someChildRevindex
      (MultiCollection.fromVec [MultiCollection.from_rocksdb]) = true ∧
    (MultiCollection.fromVec [MultiCollection.from_rocksdb]).contains_revindex
      = false ∧
    MultiCollection.loadSketchesWarns
      (MultiCollection.fromVec [MultiCollection.from_rocksdb]) = false ∧
    (MultiCollection.fromCollection ⟨true⟩).contains_revindex = false := by decide

/-- C9: when every entry of the initial matchlist has overlap at least
`threshold_hashes` (which is what `load_sketches_above_threshold`
produces at that threshold), every row emitted by
`consume_query_by_gather` carries an overlap of at least
`threshold_hashes`: each per-iteration rebuild via `prefetch` filters
at the same threshold. -/
theorem gather_rows_meet_threshold (location qname qmd5 : String)
    (query_mh : KmerMinHash) (matchlist : List PrefetchResult)
    (threshold_hashes fuel : Nat)
    (hinit : ∀ e ∈ matchlist, threshold_hashes ≤ e.overlap) :
    ∀ r ∈ consume_query_by_gather location qname qmd5 query_mh matchlist
        threshold_hashes fuel, threshold_hashes ≤ r.overlap := by
  unfold consume_query_by_gather
  exact gatherSteps_threshold_lb location qname qmd5 threshold_hashes fuel query_mh
    matchlist 0 hinit

/-- Witness for C9: the scenario-S1 run at threshold 3 emits only rows
with overlap at least 3. -/
theorem gather_rows_meet_threshold_witness :
    (∀ e ∈ exHeap, 3 ≤ e.overlap) ∧
    ∀ r ∈ consume_query_by_gather "f" "q" "qmd5" exQuery exHeap 3 5,
      3 ≤ r.overlap :=
  ⟨by decide, gather_rows_meet_threshold "f" "q" "qmd5" exQuery exHeap 3 5 (by decide)⟩


/-- C3 counterexample: the claim says every containment-thresholded
search path emits a row only when `overlap / |Q|` strictly exceeds the
threshold; the rocksdb-backed manysearch emits a row whose containment
exactly equals the threshold (query `{1,2}`, indexed subject `{1,3}`,
threshold `1/2`, containment `1/2`). -/
theorem rocksdb_manysearch_emits_at_threshold :
    ∃ r ∈ ManysearchRocksdb.manysearchRocksdbRows aniConst cexDb 1
        [cexRockQuery] (1/2), ¬ ((1 : ℚ)/2 < r.containment) := by
  have heval :
      ManysearchRocksdb.manysearchRocksdbRows aniConst cexDb 1 [cexRockQuery] (1/2)
        = [⟨"RQ", "rqmd5", "subj", 1/2, 1, 21, 1, 0, some (1/2)⟩] := by
    have hds : downsample_scaled cexRockQuery.minhash 1 = .ok cexRockQuery.minhash := by
      decide
    have hfl : f64AsUsize (1/2) = 0 := by norm_num [f64AsUsize]
    simp only [ManysearchRocksdb.manysearchRocksdbRows, List.flatMap_cons,
      List.flatMap_nil, List.append_nil, ManysearchRocksdb.rowsForQuery, hds, hfl]
    norm_num [ManysearchRocksdb.matches_from_counter, cexDb, cexRockQuery, cexSubject,
      KmerMinHash.size, aniConst]
    have hcard : ({1, 2} ∩ ({1, 3} : Finset Nat)).card = 1 := by decide
    simp only [List.filterMap_cons, List.filterMap_nil, hcard]
    norm_num
  refine ⟨⟨"RQ", "rqmd5", "subj", 1/2, 1, 21, 1, 0, some (1/2)⟩, ?_, ?_⟩
  · rw [heval]
    exact List.mem_cons_self _ _
  · norm_num

/-- C3 amended: multisearch, manysearch and pairwise apply their
containment threshold strictly — multisearch and manysearch emit only
rows with `overlap / |Q| > threshold`, pairwise emits a comparison row
only when the larger of the two containment directions strictly
exceeds the threshold — while the rocksdb-backed manysearch applies
its threshold non-strictly, emitting exactly the rows with
`overlap / |Q| >= threshold`. -/
theorem containment_threshold_strictness (aniF : ℚ → ℚ → ℚ) :
    (∀ (queries against_list : List SmallSignature) (t : ℚ)
        (r : Multisearch.MultiSearchResult),
      r ∈ Multisearch.multisearchRows queries against_list t → t < r.containment) ∧
    (∀ (query_sketchlist : List SmallSignature) (against_collection : List RecordC)
        (t : ℚ) (r : Manysearch.SearchResult),
      r ∈ Manysearch.manysearchRows query_sketchlist against_collection t →
        t < r.containment) ∧
    (∀ (sketches : List SmallSignature) (ksizeF t : ℚ) (ea : Bool)
        (x : Nat × Nat × Pairwise.MultiSearchResult),
      x ∈ Pairwise.pairwiseRows aniF sketches ksizeF t ea false →
        t < x.2.2.max_containment) ∧
    (∀ (db : List (String × KmerMinHash)) (set_scaled : Nat)
        (queries : List SmallSignature) (t : ℚ) (r : ManysearchRocksdb.SearchResult),
      r ∈ ManysearchRocksdb.manysearchRocksdbRows aniF db set_scaled queries t →
        t ≤ r.containment) := by
  refine ⟨?_, ?_, ?_, ?_⟩
  · intro queries against_list t r hr
    unfold Multisearch.multisearchRows at hr
    rw [List.mem_flatMap] at hr
    obtain ⟨ag, hag, hr⟩ := hr
    rw [List.mem_filterMap] at hr
    obtain ⟨q, hq, hf⟩ := hr
    revert hf
    cases hcc : count_common q.minhash ag.minhash false with
    | error e => intro hf; simp at hf
    | ok ov =>
      intro hf
      dsimp only at hf
      by_cases hlt : t < (ov : ℚ) / (q.minhash.size : ℚ)
      · simp only [hlt, if_true] at hf
        injection hf with hf
        subst hf
        exact hlt
      · simp [hlt] at hf
  · intro query_sketchlist against_collection t r hr
    unfold Manysearch.manysearchRows at hr
    rw [List.mem_flatMap] at hr
    obtain ⟨arec, ha, hr⟩ := hr
    revert hr
    cases hfm : firstMinhash arec.sketches with
    | none => intro hr; simp at hr
    | some against_mh =>
      intro hr
      dsimp only at hr
      rw [List.mem_filterMap] at hr
      obtain ⟨q, hq, hf⟩ := hr
      revert hf
      cases hcc : count_common q.minhash against_mh true with
      | error e => intro hf; simp at hf
      | ok ov =>
        intro hf
        dsimp only at hf
        by_cases hlt : t < (ov : ℚ) / (q.minhash.size : ℚ)
        · simp only [hlt, if_true] at hf
          injection hf with hf
          subst hf
          exact hlt
        · simp [hlt] at hf
  · intro sketches ksizeF t ea x hx
    unfold Pairwise.pairwiseRows at hx
    rw [List.mem_flatMap] at hx
    obtain ⟨iq, hiq, hx⟩ := hx
    rw [List.mem_append] at hx
    rcases hx with hx | hx
    · rw [List.mem_filterMap] at hx
      obtain ⟨ja, hja, hmap⟩ := hx
      rw [Option.map_eq_some'] at hmap
      obtain ⟨row, hrow, heq⟩ := hmap
      subst heq
      revert hrow
      unfold Pairwise.comparisonRow
      cases hcc : count_common iq.2.minhash ja.2.minhash false with
      | error e => intro hrow; simp at hrow
      | ok ov =>
        intro hrow
        dsimp only at hrow
        by_cases hlt : t < (ov : ℚ) / (iq.2.minhash.size : ℚ) ∨
            t < (ov : ℚ) / (ja.2.minhash.size : ℚ)
        · simp only [hlt, if_true] at hrow
          injection hrow with hrow
          subst hrow
          exact lt_max_iff.mpr hlt
        · simp [hlt] at hrow
    · simp at hx
  · intro db set_scaled queries t r hr
    unfold ManysearchRocksdb.manysearchRocksdbRows at hr
    rw [List.mem_flatMap] at hr
    obtain ⟨q, hq, hr⟩ := hr
    revert hr
    unfold ManysearchRocksdb.rowsForQuery
    cases hds : downsample_scaled q.minhash set_scaled with
    | error e => intro hr; simp at hr
    | ok qmh =>
      intro hr
      dsimp only at hr
      rw [List.mem_filterMap] at hr
      obtain ⟨pm, hpm, hf⟩ := hr
      by_cases hle : t ≤ (pm.2 : ℚ) / (qmh.size : ℚ)
      · simp only [hle, if_true] at hf
        injection hf with hf
        subst hf
        exact hle
      · simp [hle] at hf

/-- Witness for C3 (amended): the multisearch comparison of two equal
five-hash sketches at threshold `1/2` emits a row, and its containment
exceeds `1/2`. -/
theorem containment_threshold_strictness_witness :
    exMultiRow ∈ Multisearch.multisearchRows [exMultiQuery] [exMultiAgainst] (1/2) ∧
    (1 : ℚ)/2 < exMultiRow.containment := by
  have hmem : exMultiRow ∈
      Multisearch.multisearchRows [exMultiQuery] [exMultiAgainst] (1/2) := by
    have hcc : count_common exMultiQuery.minhash exMultiAgainst.minhash false
        = .ok 5 := by decide
    have hsz : exMultiQuery.minhash.size = 5 := by decide
    have hsz2 : exMultiAgainst.minhash.size = 5 := by decide
    simp only [Multisearch.multisearchRows, List.flatMap_cons, List.flatMap_nil,
      List.append_nil, List.filterMap_cons, List.filterMap_nil, hcc, hsz, hsz2]
    norm_num [exMultiRow, exMultiQuery, exMultiAgainst]
  exact ⟨hmem, (containment_threshold_strictness aniConst).1 [exMultiQuery]
    [exMultiAgainst] (1/2) exMultiRow hmem⟩
theorem enumFrom_pairwise_fst_lt {α : Type} (l : List α) :
    ∀ n, (List.enumFrom n l).Pairwise (fun x y => x.1 < y.1) := by
  induction l with
  | nil => intro n; exact List.Pairwise.nil
  | cons x xs ih =>
    intro n
    rw [List.enumFrom_cons]
    refine List.Pairwise.cons ?_ (ih (n + 1))
    intro y hy
    have := List.le_fst_of_mem_enumFrom hy
    omega

theorem pairwise_inner_mem_iff (aniF : ℚ → ℚ → ℚ) (ksizeF t : ℚ) (ea : Bool)
    (i : Nat) (q : SmallSignature) (sketches : List SmallSignature)
    (a b : Nat) (row : Pairwise.MultiSearchResult) :
    (a, b, row) ∈ (List.enumFrom (i + 1) (sketches.drop (i + 1))).filterMap
        (fun ja => (Pairwise.comparisonRow aniF ksizeF t ea q ja.2).map
          fun r => (i, ja.1, r)) ↔
      a = i ∧ i + 1 ≤ b ∧ ∃ sb, sketches[b]? = some sb ∧
        Pairwise.comparisonRow aniF ksizeF t ea q sb = some row := by
  rw [List.mem_filterMap]
  constructor
  · rintro ⟨⟨j, sb⟩, hja, hmap⟩
    rw [Option.map_eq_some'] at hmap
    obtain ⟨r0, hr0, heq⟩ := hmap
    obtain ⟨rfl, rfl, rfl⟩ : i = a ∧ j = b ∧ r0 = row := by
      simpa [Prod.ext_iff] using heq
    obtain ⟨hle, hlt, hgt⟩ := List.mem_enumFrom hja
    refine ⟨rfl, hle, sb, ?_, hr0⟩
    have h9 : (sketches.drop (i + 1))[j - (i + 1)]? = some sb := by
      rw [List.getElem?_eq_some_iff]
      exact ⟨by omega, hgt.symm⟩
    rw [List.getElem?_drop] at h9
    have hj : i + 1 + (j - (i + 1)) = j := by omega
    rw [hj] at h9
    exact h9
  · rintro ⟨rfl, hb, sb, hsb, hrow⟩
    refine ⟨(b, sb), ?_, ?_⟩
    · rw [List.mk_mem_enumFrom_iff_le_and_getElem?_sub]
      refine ⟨hb, ?_⟩
      rw [List.getElem?_drop]
      have hj : a + 1 + (b - (a + 1)) = b := by omega
      rw [hj]
      exact hsb
    · rw [hrow]
      rfl

theorem pairwiseRows_mem_iff (aniF : ℚ → ℚ → ℚ) (sketches : List SmallSignature)
    (ksizeF t : ℚ) (ea wa : Bool) (a b : Nat) (row : Pairwise.MultiSearchResult) :
    (a, b, row) ∈ Pairwise.pairwiseRows aniF sketches ksizeF t ea wa ↔
      (∃ sa sb, sketches[a]? = some sa ∧ sketches[b]? = some sb ∧ a < b ∧
        Pairwise.comparisonRow aniF ksizeF t ea sa sb = some row) ∨
      (wa = true ∧ ∃ sa, sketches[a]? = some sa ∧ b = a ∧
        row = Pairwise.selfRow sa ea) := by
  unfold Pairwise.pairwiseRows
  rw [List.mem_flatMap]
  constructor
  · rintro ⟨⟨i, sa⟩, hiq, hx⟩
    have hsa : sketches[i]? = some sa := List.mem_enum_iff_getElem?.mp hiq
    rw [List.mem_append] at hx
    rcases hx with hx | hx
    · left
      rw [pairwise_inner_mem_iff] at hx
      obtain ⟨rfl, hble, sb, hsb, hrow⟩ := hx
      exact ⟨sa, sb, hsa, hsb, by omega, hrow⟩
    · right
      cases wa with
      | false => simp at hx
      | true =>
        simp only [if_true] at hx
        rw [List.mem_singleton] at hx
        obtain ⟨rfl, rfl, rfl⟩ : i = a ∧ i = b ∧ Pairwise.selfRow sa ea = row := by
          simpa [Prod.ext_iff, eq_comm] using hx
        exact ⟨rfl, sa, hsa, rfl, rfl⟩
  · rintro (⟨sa, sb, hsa, hsb, hab, hrow⟩ | ⟨rfl, sa, hsa, hba, rfl⟩)
    · refine ⟨(a, sa), List.mem_enum_iff_getElem?.mpr hsa, ?_⟩
      rw [List.mem_append]
      left
      rw [pairwise_inner_mem_iff]
      exact ⟨rfl, by omega, sb, hsb, hrow⟩
    · subst hba
      refine ⟨(b, sa), List.mem_enum_iff_getElem?.mpr hsa, ?_⟩
      rw [List.mem_append]
      right
      simp

theorem pairwise_block_fst (aniF : ℚ → ℚ → ℚ) (ksizeF t : ℚ) (ea : Bool)
    (sketches : List SmallSignature) (i : Nat) (q : SmallSignature) (p : Nat × Nat)
    (hp : p ∈ ((List.enumFrom (i + 1) (sketches.drop (i + 1))).filterMap
        (fun ja => (Pairwise.comparisonRow aniF ksizeF t ea q ja.2).map
          fun r => (i, ja.1, r))).map (fun x => (x.1, x.2.1))) :
    p.1 = i := by
  rw [List.mem_map] at hp
  obtain ⟨x, hx, hpx⟩ := hp
  rw [List.mem_filterMap] at hx
  obtain ⟨ja, hja, hmap⟩ := hx
  rw [Option.map_eq_some'] at hmap
  obtain ⟨r0, hr0, heq⟩ := hmap
  rw [← hpx, ← heq]

theorem pairwiseRows_pairs_nodup (aniF : ℚ → ℚ → ℚ) (sketches : List SmallSignature)
    (ksizeF t : ℚ) (ea : Bool) :
    ((Pairwise.pairwiseRows aniF sketches ksizeF t ea false).map
      (fun x => (x.1, x.2.1))).Nodup := by
  unfold Pairwise.pairwiseRows
  rw [List.map_flatMap]
  rw [List.nodup_flatMap]
  constructor
  · rintro ⟨i, sa⟩ hiq
    simp only [Bool.false_eq_true, if_false, List.append_nil, List.map_filterMap]
    refine List.Pairwise.filterMap _ ?_ (enumFrom_pairwise_fst_lt _ _)
    intro ja ja2 hlt y hy y2 hy2
    revert hy
    cases hcr : Pairwise.comparisonRow aniF ksizeF t ea sa ja.2 with
    | none => intro hy; simp at hy
    | some r =>
      intro hy
      revert hy2
      cases hcr2 : Pairwise.comparisonRow aniF ksizeF t ea sa ja2.2 with
      | none => intro hy2; simp at hy2
      | some r2 =>
        intro hy2
        simp only [Option.map_some', Option.mem_def, Option.some.injEq] at hy hy2
        subst hy
        subst hy2
        intro hcon
        have : ja.1 = ja2.1 := by
          simpa [Prod.ext_iff] using hcon
        omega
  · have henum := enumFrom_pairwise_fst_lt sketches 0
    have : sketches.enum = List.enumFrom 0 sketches := rfl
    rw [this]
    refine List.Pairwise.imp ?_ henum
    intro x y hxy
    intro p hpx hpy
    have h1 : p.1 = x.1 := by
      revert hpx
      simp only [Bool.false_eq_true, if_false, List.append_nil]
      exact pairwise_block_fst aniF ksizeF t ea sketches x.1 x.2 p
    have h2 : p.1 = y.1 := by
      revert hpy
      simp only [Bool.false_eq_true, if_false, List.append_nil]
      exact pairwise_block_fst aniF ksizeF t ea sketches y.1 y.2 p
    omega

theorem filter_flatMap_eq {α β : Type} (p : β → Bool) (f : α → List β) (l : List α) :
    (l.flatMap f).filter p = l.flatMap (fun a => (f a).filter p) := by
  induction l with
  | nil => rfl
  | cons x xs ih => simp [List.flatMap_cons, List.filter_append, ih]

theorem enumFrom_flatMap_single {α β : Type} (g : α → β) (i : Nat) :
    ∀ (l : List α) (n : Nat),
      (List.enumFrom n l).flatMap (fun kq => if kq.1 = i then [g kq.2] else []) =
        if n ≤ i then
          (match l[i - n]? with
           | some s => [g s]
           | none => [])
        else [] := by
  intro l
  induction l with
  | nil =>
    intro n
    simp
  | cons x xs ih =>
    intro n
    rw [List.enumFrom_cons, List.flatMap_cons, ih (n + 1)]
    by_cases hni : n = i
    · subst hni
      have h1 : ¬ (n + 1 ≤ n) := by omega
      simp [h1, Nat.sub_self]
    · by_cases hle : n ≤ i
      · have h2 : n + 1 ≤ i := by omega
        have h3 : i - n = (i - (n + 1)) + 1 := by omega
        simp [hni, h2, hle, h3]
      · have h2 : ¬ (n + 1 ≤ i) := by omega
        simp [hni, h2, hle]

theorem pairwiseRows_write_all_filter (aniF : ℚ → ℚ → ℚ) (sketches : List SmallSignature)
    (ksizeF t : ℚ) (ea : Bool) (i : Nat) (s : SmallSignature)
    (hs : sketches[i]? = some s) :
    (Pairwise.pairwiseRows aniF sketches ksizeF t ea true).filter
        (fun x => x.1 == i && x.2.1 == i)
      = [(i, i, Pairwise.selfRow s ea)] := by
  unfold Pairwise.pairwiseRows
  rw [filter_flatMap_eq]
  rw [List.flatMap_congr (g := fun iq : Nat × SmallSignature =>
    if iq.1 = i then [(i, i, Pairwise.selfRow iq.2 ea)] else [])]
  · refine (enumFrom_flatMap_single
      (fun s2 => (i, i, Pairwise.selfRow s2 ea)) i sketches 0).trans ?_
    rw [if_pos (Nat.zero_le i), Nat.sub_zero, hs]
  · intro iq hiq
    rw [List.filter_append]
    have hinner : ((List.enumFrom (iq.1 + 1) (sketches.drop (iq.1 + 1))).filterMap
        (fun ja => (Pairwise.comparisonRow aniF ksizeF t ea iq.2 ja.2).map
          fun r => (iq.1, ja.1, r))).filter (fun x => x.1 == i && x.2.1 == i) = [] := by
      rw [List.filter_eq_nil_iff]
      rintro ⟨a, b, r⟩ hx
      rw [pairwise_inner_mem_iff] at hx
      obtain ⟨rfl, hble, _, _, _⟩ := hx
      simp only [Bool.and_eq_true, beq_iff_eq, not_and]
      intro h1 h2
      omega
    rw [hinner]
    simp only [if_true, List.nil_append]
    by_cases hiqi : iq.1 = i
    · rw [if_pos hiqi]
      subst hiqi
      simp
    · rw [if_neg hiqi]
      have hb : ((iq.1 == i) && (iq.1 == i)) = false := by
        simp [hiqi]
      simp [List.filter_cons, hb, hiqi]


theorem comparisonRow_isSome_iff (aniF : ℚ → ℚ → ℚ) (ksizeF t : ℚ) (ea : Bool)
    (sa sb : SmallSignature) :
    (∃ row, Pairwise.comparisonRow aniF ksizeF t ea sa sb = some row) ↔
      ∃ ov, count_common sa.minhash sb.minhash false = .ok ov ∧
        (t < (ov : ℚ) / (sa.minhash.size : ℚ) ∨
          t < (ov : ℚ) / (sb.minhash.size : ℚ)) := by
  unfold Pairwise.comparisonRow
  cases hcc : count_common sa.minhash sb.minhash false with
  | error e => simp
  | ok ov =>
    dsimp only
    by_cases hc : t < (ov : ℚ) / (sa.minhash.size : ℚ) ∨
        t < (ov : ℚ) / (sb.minhash.size : ℚ)
    · simp only [hc, if_true]
      constructor
      · intro _
        exact ⟨ov, rfl, hc⟩
      · intro _
        exact ⟨_, rfl⟩
    · simp only [hc, if_false]
      constructor
      · rintro ⟨row, hrow⟩
        exact absurd hrow (by simp)
      · rintro ⟨ov2, hov2, hcond⟩
        injection hov2 with hov2
        subst hov2
        exact absurd hcond hc

/-- C7 counterexample: the claim says pairwise emits only
upper-triangle pairs `(i, j)` with `j > i`; with `write_all` set, the
run over two sketches emits the diagonal pair `(0, 0)` (a
self-comparison row), which is not an upper-triangle pair. -/
theorem pairwise_write_all_emits_diagonal :
    ((0, 0, Pairwise.selfRow exPairA false) ∈
      Pairwise.pairwiseRows aniConst [exPairA, exPairB] 21 (2/5) false true) ∧
    ¬ (0 < 0) := by
  constructor
  · rw [pairwiseRows_mem_iff]
    right
    exact ⟨rfl, exPairA, rfl, rfl, rfl⟩
  · omega

/-- C7 amended: when `write_all` is not set, pairwise over a single
collection of `N` sketches emits only upper-triangle pairs `(i, j)`
with `i < j < N`, never emits a pair twice, and emits the pair
`(i, j)` exactly when either-direction containment strictly exceeds
the threshold. -/
theorem pairwise_upper_triangle_exact (aniF : ℚ → ℚ → ℚ)
    (sketches : List SmallSignature) (ksizeF threshold : ℚ) (estimate_ani : Bool) :
    (∀ x ∈ Pairwise.pairwiseRows aniF sketches ksizeF threshold estimate_ani false,
        x.1 < x.2.1 ∧ x.2.1 < sketches.length) ∧
    ((Pairwise.pairwiseRows aniF sketches ksizeF threshold estimate_ani false).map
        (fun x => (x.1, x.2.1))).Nodup ∧
    (∀ (i j : Nat) (si sj : SmallSignature), sketches[i]? = some si →
        sketches[j]? = some sj → i < j →
        ((∃ row, (i, j, row) ∈ Pairwise.pairwiseRows aniF sketches ksizeF threshold
            estimate_ani false) ↔
          ∃ ov, count_common si.minhash sj.minhash false = .ok ov ∧
            (threshold < (ov : ℚ) / (si.minhash.size : ℚ) ∨
              threshold < (ov : ℚ) / (sj.minhash.size : ℚ)))) := by
  refine ⟨?_, pairwiseRows_pairs_nodup aniF sketches ksizeF threshold estimate_ani, ?_⟩
  · rintro ⟨a, b, row⟩ hx
    rw [pairwiseRows_mem_iff] at hx
    rcases hx with ⟨sa, sb, hsa, hsb, hab, _⟩ | ⟨hfalse, _⟩
    · exact ⟨hab, (List.getElem?_eq_some_iff.mp hsb).1⟩
    · exact absurd hfalse (by simp)
  · intro i j si sj hsi hsj hij
    constructor
    · rintro ⟨row, hmem⟩
      rw [pairwiseRows_mem_iff] at hmem
      rcases hmem with ⟨sa, sb, hsa, hsb, _, hrow⟩ | ⟨hfalse, _⟩
      · rw [hsi] at hsa
        rw [hsj] at hsb
        injection hsa with hsa
        injection hsb with hsb
        subst hsa
        subst hsb
        exact (comparisonRow_isSome_iff aniF ksizeF threshold estimate_ani si sj).mp
          ⟨row, hrow⟩
      · exact absurd hfalse (by simp)
    · intro hcond
      obtain ⟨row, hrow⟩ :=
        (comparisonRow_isSome_iff aniF ksizeF threshold estimate_ani si sj).mpr hcond
      refine ⟨row, ?_⟩
      rw [pairwiseRows_mem_iff]
      exact Or.inl ⟨si, sj, hsi, hsj, hij, hrow⟩

/-- Witness for C7 (amended): the pair `(0, 1)` over the two scenario-S4
sketches is emitted exactly when one of the containment directions
exceeds the threshold `2/5`. -/
theorem pairwise_upper_triangle_exact_witness :
    (([exPairA, exPairB][0]? = some exPairA) ∧
      ([exPairA, exPairB][1]? = some exPairB) ∧ 0 < 1) ∧
    ((∃ row, (0, 1, row) ∈ Pairwise.pairwiseRows aniConst [exPairA, exPairB] 21 (2/5)
        false false) ↔
      ∃ ov, count_common exPairA.minhash exPairB.minhash false = .ok ov ∧
        ((2 : ℚ)/5 < (ov : ℚ) / (exPairA.minhash.size : ℚ) ∨
          (2 : ℚ)/5 < (ov : ℚ) / (exPairB.minhash.size : ℚ))) :=
  ⟨⟨rfl, rfl, by omega⟩,
    (pairwise_upper_triangle_exact aniConst [exPairA, exPairB] 21 (2/5) false).2.2
      0 1 exPairA exPairB rfl rfl (by omega)⟩

/-- C10: with `write_all` set, pairwise emits, for each sketch in the
collection and regardless of the threshold, exactly one
self-comparison row, whose containment, max_containment and jaccard
are all `1`, whose intersect_hashes equals the sketch's size, and
whose four ANI columns are all `1` when `estimate_ani` is set. -/
theorem pairwise_write_all_self_rows (aniF : ℚ → ℚ → ℚ)
    (sketches : List SmallSignature) (ksizeF threshold : ℚ) (estimate_ani : Bool)
    (i : Nat) (s : SmallSignature) (hs : sketches[i]? = some s) :
    ((Pairwise.pairwiseRows aniF sketches ksizeF threshold estimate_ani true).filter
        (fun x => x.1 == i && x.2.1 == i) = [(i, i, Pairwise.selfRow s estimate_ani)]) ∧
    (Pairwise.selfRow s estimate_ani).containment = 1 ∧
    (Pairwise.selfRow s estimate_ani).max_containment = 1 ∧
    (Pairwise.selfRow s estimate_ani).jaccard = 1 ∧
    (Pairwise.selfRow s estimate_ani).intersect_hashes = (s.minhash.size : ℚ) ∧
    (estimate_ani = true →
      (Pairwise.selfRow s estimate_ani).query_containment_ani = some 1 ∧
      (Pairwise.selfRow s estimate_ani).match_containment_ani = some 1 ∧
      (Pairwise.selfRow s estimate_ani).average_containment_ani = some 1 ∧
      (Pairwise.selfRow s estimate_ani).max_containment_ani = some 1) := by
  refine ⟨pairwiseRows_write_all_filter aniF sketches ksizeF threshold estimate_ani i s hs,
    rfl, rfl, rfl, rfl, ?_⟩
  intro hea
  subst hea
  exact ⟨rfl, rfl, rfl, rfl⟩

/-- Witness for C10: the single-sketch collection with `write_all` and
`estimate_ani` set emits exactly the one self-row with unit fields. -/
theorem pairwise_write_all_self_rows_witness :
    ([exPairA][0]? = some exPairA) ∧
    (((Pairwise.pairwiseRows aniConst [exPairA] 21 (2/5) true true).filter
        (fun x => x.1 == 0 && x.2.1 == 0) = [(0, 0, Pairwise.selfRow exPairA true)]) ∧
      (Pairwise.selfRow exPairA true).containment = 1 ∧
      (Pairwise.selfRow exPairA true).max_containment = 1 ∧
      (Pairwise.selfRow exPairA true).jaccard = 1 ∧
      (Pairwise.selfRow exPairA true).intersect_hashes = (exPairA.minhash.size : ℚ) ∧
      (true = true →
        (Pairwise.selfRow exPairA true).query_containment_ani = some 1 ∧
        (Pairwise.selfRow exPairA true).match_containment_ani = some 1 ∧
        (Pairwise.selfRow exPairA true).average_containment_ani = some 1 ∧
        (Pairwise.selfRow exPairA true).max_containment_ani = some 1)) :=
  ⟨rfl, pairwise_write_all_self_rows aniConst [exPairA] 21 (2/5) true 0 exPairA rfl⟩
